import Mathlib

/-!
Verification of the OceanOptics spectrometer base driver
(`OceanOptics/_base.py`) against its design specification.

The protocol layer of the driver is embedded shallowly:

* byte sequences are `List Nat` (each entry one byte);
* the USB transport is abstracted as the list of byte chunks the device
  returns for the successive reads a function issues, together with a
  trace of the `(endpoint, size)` read requests the code makes;
* Python exceptions become an explicit error type `OOErr` and fallible
  operations return `Except OOErr _`;
* floating-point arithmetic of the original is modelled over `ℚ`
  (the spec states the arithmetic at the level of exact real formulas);
  the total division of `ℚ` mirrors the fact that numpy float division does
  not raise on a zero denominator.
-/

namespace OceanOptics

/-- A byte string: list of byte values. -/
abbrev Bytes := List Nat

/-- Errors of the driver, mirroring the Python exceptions that can be
raised by `_base.py`:  `_OOError` messages get one constructor each,
`usb.core.USBError` is `usbErr`, a `struct.error` from `unpack` is
`structErr`, a Python `ValueError` (from `list.index`) is `valueErr`,
an `IndexError` is `indexErr`, and any other propagated exception is
`otherExc` with an abstract code. -/
inductive OOErr where
  | unknownModel
  | initUSBCOM
  | initSpectrum
  | wrongAnswer
  | wrongSyncByte
  | usbErr
  | structErr
  | valueErr
  | indexErr
  | otherExc (code : Nat)
deriving DecidableEq, Repr

/-- Failure classes of one `_query_status` attempt, as seen by the
`except usb.core.USBError` handler in `_init_robust_status`: either a
transport (`usb.core.USBError`) failure or any other exception. -/
inductive QErr where
  | usb
  | other (code : Nat)
deriving DecidableEq, Repr

/-- The decoded device status, i.e. the dict built by
`OceanOpticsBase._query_status` from the twelve little-endian fields of
the 0xFE response (the two reserved bytes between `packets_in_endpoint`
and `usb_speed` are not named in the dict). -/
structure Status where
  pixels : Nat
  integration_time : Nat
  lamp_enable : Nat
  trigger_mode : Nat
  acquisition_status : Nat
  packets_in_spectrum : Nat
  power_down : Nat
  packets_in_endpoint : Nat
  usb_speed : Nat
deriving DecidableEq, Repr

/-- The packet layout `(packet_N, packet_size, packet_func)` selected
from `_OOSpecConfig[model][usb_speed]`.  `packet_func` is the
model-specific per-sample decode function applied by
`map(self._packet_func, spectrum)`. -/
structure SpecCfg where
  packet_N : Nat
  packet_size : Nat
  packet_func : Int → ℚ

/-- The mutable attributes of an `OceanOpticsBase` instance that the
claimed operations read:  `_USBTIMEOUT` (seconds, set once at
connection), `_integration_time`, `_pixels`, `_usb_speed`, `_EPspec`
and the selected packet layout. -/
structure DriverState where
  usbtimeout : ℚ
  integration_time : ℚ
  pixels : Nat
  usb_speed : Nat
  EPspec : Nat
  cfg : SpecCfg

/-- Commands written to the out endpoint, one constructor per command
byte of the protocol. -/
inductive Cmd where
  | initCmd
  | setIntegrationTime (v : ℚ)
  | queryInformation (address : Nat)
  | queryStatus
  | requestSpectrum
deriving DecidableEq

/-- Decodes one little-endian signed 16-bit sample from two bytes,
as `struct.unpack` does for format `<h`. -/
def i16_of_le (lo hi : Nat) : Int :=
  let u := lo % 256 + 256 * (hi % 256)
  if u < 32768 then (u : Int) else (u : Int) - 65536

/-- Decodes the little-endian signed 16-bit samples of a byte string,
as `struct.unpack` does for a `<hh...h` format (callers check the
exact length first, as `struct.unpack` does). -/
def unpack_i16le : Bytes → List Int
  | lo :: hi :: rest => i16_of_le lo hi :: unpack_i16le rest
  | _ => []

/-- Line 45 of `_base.py`: `self._USBTIMEOUT = self._dev.default_timeout * 1e-3`,
converting the default timeout of the transport from milliseconds to seconds;
stored once at connection time. -/
def USBTIMEOUT (default_timeout_ms : ℚ) : ℚ := default_timeout_ms * (1 / 1000)

/-- Result of one `_request_spectrum` call: the value returned or the
exception raised, the `(endpoint, size)` read requests issued, and the
duration passed to `time.sleep`. -/
structure RSOut where
  result : Except OOErr (List ℚ)
  reads : List (Nat × Nat)
  slept : ℚ

/-- Embeds `OceanOpticsBase._request_spectrum` (lines 157-168).  `chunks` lists
the byte chunks the device returns for the successive reads on the
spectral endpoint.  Faithfully to the source: the command 0x09 is sent,
the code sleeps `max(integration_time - USBTIMEOUT, 0)`, reads
`packet_N` chunks of requested size `packet_size`, concatenates them
(`sum(ret[1:], ret[0])`, an `IndexError` when `packet_N = 0`), reads
one further 1-byte chunk, checks the sync byte against 0x69, unpacks
`pixels` 16-bit samples (a `struct.error` unless exactly `2*pixels`
bytes arrived) and maps `packet_func` over them. -/
def request_spectrum_full (st : DriverState) (chunks : List Bytes) : RSOut :=
  let slept := max (st.integration_time - st.usbtimeout) 0
  let packetReads := List.replicate st.cfg.packet_N (st.EPspec, st.cfg.packet_size)
  if st.cfg.packet_N = 0 then
    { result := .error .indexErr, reads := packetReads, slept := slept }
  else
    let ret := ((List.range st.cfg.packet_N).map fun i => chunks.getD i []).flatten
    let reads := packetReads ++ [(st.EPspec, 1)]
    match (chunks.getD st.cfg.packet_N []).head? with
    | none => { result := .error .indexErr, reads := reads, slept := slept }
    | some b =>
      if b = 0x69 then
        if ret.length = 2 * st.pixels then
          { result := .ok ((unpack_i16le ret).map st.cfg.packet_func),
            reads := reads, slept := slept }
        else
          { result := .error .structErr, reads := reads, slept := slept }
      else
        { result := .error .wrongSyncByte, reads := reads, slept := slept }

/-- The nonlinearity denominator `sum(self._nl_factors[i] * x**i for i in range(8))`
at one sample value `x`. -/
def nl_denom (nl : List ℚ) (x : ℚ) : ℚ :=
  ((List.range 8).map fun i => nl.getD i 0 * x ^ i).sum

/-- Embeds `OceanOpticsBase.spectrum` (lines 102-108): acquire via
`_request_spectrum`; when `raw` is false divide each sample by the
nonlinearity polynomial evaluated at that sample. -/
def spectrum (st : DriverState) (nl : List ℚ) (raw : Bool) (chunks : List Bytes) :
    Except OOErr (List ℚ) :=
  match (request_spectrum_full st chunks).result with
  | .error e => .error e
  | .ok data => .ok (if raw then data else data.map fun x => x / nl_denom nl x)

/-- Embeds `OceanOpticsBase._query_information` (lines 146-152) applied to the
response bytes `ret`.  With `raw` true the bytes are returned as-is.
Otherwise `ret[0]` must be `0x05` and `ret[1]` must be `address % 0xFF`
(the wrong-answer `_OOError` on mismatch, an
`IndexError` when the response is shorter than two bytes), and the
result is `ret[2 : ret[2:].index(0) + 2]`: the bytes from offset 2 up
to, and excluding, the first zero byte (`ValueError` when no zero byte
follows). -/
def query_information (address : Nat) (raw : Bool) (ret : Bytes) : Except OOErr Bytes :=
  if raw then .ok ret
  else
    match ret with
    | [] => .error .indexErr
    | b0 :: rest =>
      if b0 ≠ 0x05 then .error .wrongAnswer
      else
        match rest with
        | [] => .error .indexErr
        | b1 :: tail =>
          if b1 ≠ address % 0xFF then .error .wrongAnswer
          else
            let idx := tail.findIdx fun b => b == 0
            if idx < tail.length then .ok (tail.take idx)
            else .error .valueErr

/-- The bounded retry loop of `_init_robust_status`: `outcomes i` is
what the `i`-th `_query_status` attempt does; `usb.core.USBError` is
absorbed and the next attempt made, any other exception propagates,
and an exhausted budget raises the Initialization-USBCOM `_OOError`. -/
def robust_status_loop (outcomes : Nat → Except QErr Status) : Nat → Nat → Except OOErr Status
  | _, 0 => .error .initUSBCOM
  | i, fuel + 1 =>
    match outcomes i with
    | .ok s => .ok s
    | .error .usb => robust_status_loop outcomes (i + 1) fuel
    | .error (.other c) => .error (.otherExc c)

/-- Embeds `OceanOpticsBase._init_robust_status` (lines 120-127): up to 10
attempts starting at attempt 0. -/
def init_robust_status (outcomes : Nat → Except QErr Status) : Except OOErr Status :=
  robust_status_loop outcomes 0 10

/-- Embeds `OceanOpticsBase.integration_time` (lines 110-114): optionally send
`SetIntegrationTime`, then re-query the device status and store/return
`integration_time * 1e-6` (microseconds to seconds).  `reported` is the
status the device answers with.  Returns the new state, the returned
value and the commands sent. -/
def integration_time_method (st : DriverState) (time_us : Option ℚ) (reported : Status) :
    DriverState × ℚ × List Cmd :=
  let setCmds : List Cmd :=
    match time_us with
    | some v => [Cmd.setIntegrationTime v]
    | none => []
  let newit : ℚ := (reported.integration_time : ℚ) * (1 / 1000000)
  ({ st with integration_time := newit }, newit, setCmds ++ [Cmd.queryStatus])

/-- Embeds `OceanOpticsBase.__init__` after the USB connection (lines 76-85):
send Initialize, run the robust status query, store `usb_speed`,
`integration_time` (the raw microsecond count, line 80) and `pixels`,
select the spectral endpoint by `usb_speed == 0x80`, look up the packet
layout, then `_init_robust_spectrum`: set the integration time to 1000
microseconds (the device answering `warm_status`) and attempt one
spectrum acquisition, any failure of which propagates (the
`except: raise` in the source re-raises on the first iteration, so the
10-iteration loop makes exactly one attempt).  Returns the driver state
on success, and the `RSOut` of the warm-up acquisition when one was made. -/
def init_after_connect (default_timeout_ms : ℚ) (EPin0 EPin1 : Nat)
    (outcomes : Nat → Except QErr Status) (specLookup : Nat → SpecCfg)
    (warm_status : Status) (warm_chunks : List Bytes) :
    Except OOErr DriverState × Option RSOut :=
  match init_robust_status outcomes with
  | .error e => (.error e, none)
  | .ok status =>
    let st0 : DriverState :=
      { usbtimeout := USBTIMEOUT default_timeout_ms
        integration_time := (status.integration_time : ℚ)
        pixels := status.pixels
        usb_speed := status.usb_speed
        EPspec := if status.usb_speed = 0x80 then EPin1 else EPin0
        cfg := specLookup status.usb_speed }
    let stp := (integration_time_method st0 (some 1000) warm_status).1
    let out := request_spectrum_full stp warm_chunks
    match out.result with
    | .error e => (.error e, some out)
    | .ok _ => (.ok stp, some out)

/-- The wavelength polynomial `sum(wl_factors[i] * p**i for i in range(4))`
at pixel `p`. -/
def wl_poly (wl : List ℚ) (p : Nat) : ℚ :=
  ((List.range 4).map fun i => wl.getD i 0 * (p : ℚ) ^ i).sum

/-- The wavelength axis computed at line 92-93 of `_base.py` and
returned unchanged by `wavelengths()`. -/
def wl_axis (wl : List ℚ) (pixels : Nat) : List ℚ :=
  (List.range pixels).map fun p => wl_poly wl p

/-- The identity sample decode (a model-specific `packet_func` used for
concrete instances; several models use the plain value). -/
def idFunc : Int → ℚ := fun z => (z : ℚ)

/-- A small concrete packet layout: two packets of two bytes. -/
def cfgA : SpecCfg := { packet_N := 2, packet_size := 2, packet_func := idFunc }

/-- A concrete driver state used to exercise the acquisition path. -/
def stA : DriverState :=
  { usbtimeout := 1 / 10, integration_time := 1 / 100, pixels := 2, usb_speed := 0,
    EPspec := 7, cfg := cfgA }

/-- The sleep passed to `time.sleep` by `_request_spectrum` is always
`max(integration_time - USBTIMEOUT, 0)` over the current state. -/
theorem request_slept_eq (st : DriverState) (chunks : List Bytes) :
    (request_spectrum_full st chunks).slept
      = max (st.integration_time - st.usbtimeout) 0 := by
  simp only [request_spectrum_full]
  split
  · rfl
  · split <;> try rfl
    split <;> try rfl
    split <;> rfl

/-- A successful `_request_spectrum` returns exactly the decoded 16-bit
samples of the concatenated packets, and those packets held exactly
`2 * pixels` bytes. -/
theorem request_result_ok_shape (st : DriverState) (chunks : List Bytes) (data : List ℚ)
    (h : (request_spectrum_full st chunks).result = .ok data) :
    data = (unpack_i16le
        (((List.range st.cfg.packet_N).map fun i => chunks.getD i []).flatten)).map
        st.cfg.packet_func
    ∧ (((List.range st.cfg.packet_N).map fun i => chunks.getD i []).flatten).length
        = 2 * st.pixels := by
  simp only [request_spectrum_full] at h
  split at h
  · simp at h
  · split at h
    · simp at h
    · split at h
      · split at h
        · simp at h
          simp only [List.getD_eq_getElem?_getD]
          exact ⟨h.symm, by simp only [← List.getD_eq_getElem?_getD]; assumption⟩
        · simp at h
      · simp at h

/-- C1: `spectrum(raw=True)` returns the acquired samples (the decoded
16-bit samples with only `packet_func` applied) unmodified, and
`spectrum(raw=False)` returns, per pixel, the sample divided by the
nonlinearity polynomial `Σ nl_factors[i] * sample^i, i = 0..7`
evaluated at that sample. -/
theorem spectrum_raw_and_corrected (st : DriverState) (nl : List ℚ) (chunks : List Bytes)
    (data : List ℚ) (h : (request_spectrum_full st chunks).result = .ok data) :
    data = (unpack_i16le
        (((List.range st.cfg.packet_N).map fun i => chunks.getD i []).flatten)).map
        st.cfg.packet_func
    ∧ spectrum st nl true chunks = .ok data
    ∧ spectrum st nl false chunks = .ok (data.map fun x => x / nl_denom nl x) := by
  refine ⟨(request_result_ok_shape st chunks data h).1, ?_, ?_⟩
  · unfold spectrum
    rw [h]
    simp
  · unfold spectrum
    rw [h]
    simp

/-- Witness for C1 at a concrete acquisition. -/
theorem spectrum_raw_and_corrected_witness :
    (request_spectrum_full stA [[5, 0], [6, 0], [0x69]]).result = .ok [5, 6]
    ∧ ([5, 6] : List ℚ) = (unpack_i16le
        (((List.range stA.cfg.packet_N).map fun i => [[5, 0], [6, 0], [0x69]].getD i []).flatten)).map
        stA.cfg.packet_func
    ∧ spectrum stA [1, 0, 0, 0, 0, 0, 0, 0] true [[5, 0], [6, 0], [0x69]] = .ok [5, 6]
    ∧ spectrum stA [1, 0, 0, 0, 0, 0, 0, 0] false [[5, 0], [6, 0], [0x69]]
        = .ok (([5, 6] : List ℚ).map fun x => x / nl_denom [1, 0, 0, 0, 0, 0, 0, 0] x) :=
  ⟨rfl, (spectrum_raw_and_corrected stA [1, 0, 0, 0, 0, 0, 0, 0] [[5, 0], [6, 0], [0x69]] [5, 6] rfl)⟩

/-- C2: with `raw` false, a QueryInformation response fails with
`ProtocolError` exactly when `response[0] != 0x05` or
`response[1] != address % 0xFF`, and otherwise the payload is the
bytes from offset 2 up to, and excluding, the first zero byte
(returned by the code as text; the hypothesis `hz` records that a
terminating zero byte is present, which the claim presupposes). -/
theorem query_information_decode (address : Nat) (b0 b1 : Nat) (tail : Bytes)
    (hz : 0 ∈ tail) :
    (query_information address false (b0 :: b1 :: tail) = .error .wrongAnswer
      ↔ (b0 ≠ 0x05 ∨ b1 ≠ address % 0xFF))
    ∧ (b0 = 0x05 → b1 = address % 0xFF →
      query_information address false (b0 :: b1 :: tail)
        = .ok (tail.take (tail.findIdx fun b => b == 0))) := by
  have hidx : (tail.findIdx fun b => b == 0) < tail.length :=
    List.findIdx_lt_length_of_exists ⟨0, hz, by simp⟩
  constructor
  · by_cases h0 : b0 = 0x05
    · by_cases h1 : b1 = address % 0xFF
      · simp [query_information, h0, h1, hidx]
      · simp [query_information, h0, h1]
    · simp [query_information, h0]
  · intro h0 h1
    simp [query_information, h0, h1, hidx]

/-- Witness for C2: response `[0x05, 3 % 255, 65, 66, 67, 0, 9]`
for address 3 decodes to `"ABC"` (bytes 65 66 67); the error side of
the equivalence is exercised with its instantiated right-hand side. -/
theorem query_information_decode_witness :
    (0 ∈ [65, 66, 67, 0, 9])
    ∧ (query_information 3 false (5 :: 3 :: [65, 66, 67, 0, 9]) = .error .wrongAnswer
        ↔ ((5 : Nat) ≠ 0x05 ∨ (3 : Nat) ≠ 3 % 0xFF))
    ∧ query_information 3 false (5 :: 3 :: [65, 66, 67, 0, 9])
        = .ok ([65, 66, 67, 0, 9].take ([65, 66, 67, 0, 9].findIdx fun b => b == 0)) :=
  ⟨by decide,
   (query_information_decode 3 5 3 [65, 66, 67, 0, 9] (by decide)).1,
   (query_information_decode 3 5 3 [65, 66, 67, 0, 9] (by decide)).2 rfl rfl⟩

/-- C3: once the `packet_N` packets have been read, the assembler
issues exactly one further 1-byte read on the same spectral endpoint
(the read trace is `packet_N` reads of `packet_size` bytes followed by
one read of 1 byte, all on `EPspec`), and the acquisition fails with
the sync error exactly when that byte is not 0x69. -/
theorem spectrum_sync_check (st : DriverState) (chunks : List Bytes) (b : Nat)
    (hN : st.cfg.packet_N ≠ 0)
    (hb : (chunks.getD st.cfg.packet_N []).head? = some b) :
    (request_spectrum_full st chunks).reads
      = List.replicate st.cfg.packet_N (st.EPspec, st.cfg.packet_size) ++ [(st.EPspec, 1)]
    ∧ ((request_spectrum_full st chunks).result = .error .wrongSyncByte ↔ b ≠ 0x69) := by
  simp only [request_spectrum_full, if_neg hN, hb]
  by_cases hsync : b = 0x69
  · rw [if_pos hsync]
    refine ⟨by split <;> rfl, ?_⟩
    simp only [hsync]
    split <;> simp
  · rw [if_neg hsync]
    simp [hsync]

/-- Witness for C3: a wrong sync byte (0x00) on a 2-packet layout. -/
theorem spectrum_sync_check_witness :
    (stA.cfg.packet_N ≠ 0)
    ∧ ([[1, 0], [2, 0], [0]].getD stA.cfg.packet_N []).head? = some 0
    ∧ (request_spectrum_full stA [[1, 0], [2, 0], [0]]).reads
        = List.replicate stA.cfg.packet_N (stA.EPspec, stA.cfg.packet_size) ++ [(stA.EPspec, 1)]
    ∧ ((request_spectrum_full stA [[1, 0], [2, 0], [0]]).result = .error .wrongSyncByte
        ↔ (0 : Nat) ≠ 0x69) :=
  ⟨by decide, by decide,
   (spectrum_sync_check stA [[1, 0], [2, 0], [0]] 0 (by decide) (by decide)).1,
   (spectrum_sync_check stA [[1, 0], [2, 0], [0]] 0 (by decide) (by decide)).2⟩

/-- C9: the nonlinearity division of `spectrum(raw=False)` is
unguarded: with all eight nonlinearity coefficients zero the
denominator is zero at the acquired sample 5, yet the operation
performs no check and returns successfully (numpy float division does
not raise; the division here is the total field division of `ℚ`). -/
theorem nl_division_unguarded :
    (request_spectrum_full stA [[5, 0], [6, 0], [0x69]]).result = .ok [5, 6]
    ∧ nl_denom [0, 0, 0, 0, 0, 0, 0, 0] 5 = 0
    ∧ ∃ res, spectrum stA [0, 0, 0, 0, 0, 0, 0, 0] false [[5, 0], [6, 0], [0x69]] = .ok res := by
  refine ⟨rfl, ?_, ⟨_, rfl⟩⟩
  simp [nl_denom, List.range_succ]

/-- C10: with `raw` true, `_query_information` returns the entire
response byte string unmodified, header bytes included, and never
raises: no echo/address validation is performed. -/
theorem query_information_raw_passthrough (address : Nat) (ret : Bytes) :
    query_information address true ret = .ok ret := rfl

/-- A concrete device status: 2 pixels, 1000 us integration time,
full-speed USB. -/
def statusA : Status :=
  { pixels := 2, integration_time := 1000, lamp_enable := 0, trigger_mode := 0,
    acquisition_status := 0, packets_in_spectrum := 1, power_down := 0,
    packets_in_endpoint := 0, usb_speed := 0 }

/-- A status-query behaviour that fails with a transport error on the
first nine attempts and then succeeds. -/
def outcomes9 : Nat → Except QErr Status :=
  fun i => if i < 9 then .error .usb else .ok statusA

/-- A packet layout violating `packet_N * packet_size = 2 * pixels`
for `statusA`. -/
def cfgBad : SpecCfg := { packet_N := 1, packet_size := 100, packet_func := idFunc }

/-- If the first `k` status attempts fail with the transport error and
attempt `k` succeeds within the budget, the retry loop returns that
success. -/
theorem robust_loop_first_ok (outcomes : Nat → Except QErr Status) :
    ∀ (k fuel i : Nat) (s : Status), k < fuel →
      (∀ j, j < k → outcomes (i + j) = .error .usb) → outcomes (i + k) = .ok s →
      robust_status_loop outcomes i fuel = .ok s := by
  intro k
  induction k with
  | zero =>
    intro fuel i s hk hj hs
    cases fuel with
    | zero => omega
    | succ f =>
      simp only [Nat.add_zero] at hs
      simp only [robust_status_loop, hs]
  | succ k ih =>
    intro fuel i s hk hj hs
    cases fuel with
    | zero => omega
    | succ f =>
      have h0 : outcomes i = .error .usb := by simpa using hj 0 (Nat.succ_pos k)
      simp only [robust_status_loop, h0]
      refine ih f (i + 1) s (by omega) ?_ ?_
      · intro j hjk
        have heq : i + 1 + j = i + (j + 1) := by omega
        rw [heq]
        exact hj (j + 1) (by omega)
      · have heq : i + 1 + k = i + (k + 1) := by omega
        rw [heq]
        exact hs

/-- If the first `k` status attempts fail with the transport error and
attempt `k` raises a non-transport exception within the budget, that
exception propagates. -/
theorem robust_loop_first_other (outcomes : Nat → Except QErr Status) :
    ∀ (k fuel i c : Nat), k < fuel →
      (∀ j, j < k → outcomes (i + j) = .error .usb) →
      outcomes (i + k) = .error (.other c) →
      robust_status_loop outcomes i fuel = .error (.otherExc c) := by
  intro k
  induction k with
  | zero =>
    intro fuel i c hk hj hs
    cases fuel with
    | zero => omega
    | succ f =>
      simp only [Nat.add_zero] at hs
      simp only [robust_status_loop, hs]
  | succ k ih =>
    intro fuel i c hk hj hs
    cases fuel with
    | zero => omega
    | succ f =>
      have h0 : outcomes i = .error .usb := by simpa using hj 0 (Nat.succ_pos k)
      simp only [robust_status_loop, h0]
      refine ih f (i + 1) c (by omega) ?_ ?_
      · intro j hjk
        have heq : i + 1 + j = i + (j + 1) := by omega
        rw [heq]
        exact hj (j + 1) (by omega)
      · have heq : i + 1 + k = i + (k + 1) := by omega
        rw [heq]
        exact hs

/-- If every attempt in the budget fails with the transport error, the
retry loop exhausts and raises the initialization error. -/
theorem robust_loop_exhaust (outcomes : Nat → Except QErr Status) :
    ∀ (fuel i : Nat), (∀ j, j < fuel → outcomes (i + j) = .error .usb) →
      robust_status_loop outcomes i fuel = .error .initUSBCOM := by
  intro fuel
  induction fuel with
  | zero => intro i _; rfl
  | succ f ih =>
    intro i hj
    have h0 : outcomes i = .error .usb := by simpa using hj 0 (Nat.succ_pos f)
    simp only [robust_status_loop, h0]
    refine ih (i + 1) ?_
    intro j hjf
    have heq : i + 1 + j = i + (j + 1) := by omega
    rw [heq]
    exact hj (j + 1) (by omega)

/-- C5: after Initialize, `_init_robust_status` tries `_query_status`
up to 10 times: the first success (within the budget, after only
transport failures) is returned, a non-transport exception propagates
immediately, and 10 consecutive transport failures raise
`InitializationError("Initialization USBCOM")`. -/
theorem init_status_retry (outcomes : Nat → Except QErr Status) :
    (∀ k s, k < 10 → (∀ j, j < k → outcomes j = .error .usb) → outcomes k = .ok s →
      init_robust_status outcomes = .ok s)
    ∧ (∀ k c, k < 10 → (∀ j, j < k → outcomes j = .error .usb) →
        outcomes k = .error (.other c) →
      init_robust_status outcomes = .error (.otherExc c))
    ∧ ((∀ j, j < 10 → outcomes j = .error .usb) →
      init_robust_status outcomes = .error .initUSBCOM) := by
  refine ⟨?_, ?_, ?_⟩
  · intro k s hk hj hs
    exact robust_loop_first_ok outcomes k 10 0 s hk
      (fun j hjk => by simpa using hj j hjk) (by simpa using hs)
  · intro k c hk hj hs
    exact robust_loop_first_other outcomes k 10 0 c hk
      (fun j hjk => by simpa using hj j hjk) (by simpa using hs)
  · intro hj
    exact robust_loop_exhaust outcomes 10 0 (fun j hjf => by simpa using hj j hjf)

/-- Witness for C5: nine transport failures then a success yields the
status; ten straight transport failures yield the initialization
error. -/
theorem init_status_retry_witness :
    init_robust_status outcomes9 = .ok statusA
    ∧ init_robust_status (fun _ => .error .usb) = .error .initUSBCOM :=
  ⟨(init_status_retry outcomes9).1 9 statusA (by norm_num)
      (fun j hj => by simp [outcomes9, hj]) (by simp [outcomes9]),
   (init_status_retry (fun _ => .error .usb)).2.2 (fun _ _ => rfl)⟩

/-- C6: `integration_time(time_us)` always re-queries the device
status, returns (and stores) the device-reported microsecond count
divided by 1e6 regardless of the requested value, and sends
`SetIntegrationTime` exactly when a value was supplied. -/
theorem integration_time_requery (st : DriverState) (time_us : Option ℚ) (reported : Status) :
    (integration_time_method st time_us reported).2.1
        = (reported.integration_time : ℚ) / 1000000
    ∧ (integration_time_method st time_us reported).1.integration_time
        = (reported.integration_time : ℚ) / 1000000
    ∧ Cmd.queryStatus ∈ (integration_time_method st time_us reported).2.2
    ∧ (∀ v, Cmd.setIntegrationTime v ∈ (integration_time_method st time_us reported).2.2
        ↔ time_us = some v) := by
  cases time_us with
  | none =>
    refine ⟨by simp [integration_time_method, mul_one_div, div_eq_mul_inv], by simp [integration_time_method, mul_one_div, div_eq_mul_inv],
      by simp [integration_time_method], ?_⟩
    intro v
    simp [integration_time_method]
  | some w =>
    refine ⟨by simp [integration_time_method, mul_one_div, div_eq_mul_inv], by simp [integration_time_method, mul_one_div, div_eq_mul_inv],
      by simp [integration_time_method], ?_⟩
    intro v
    simp [integration_time_method, eq_comm]

/-- C4: whenever initialization reaches the spectrum warm-up, the
acquisition sleeps `max(integration_time - USBTIMEOUT, 0)` where the
stored timeout is the default transport timeout converted from
milliseconds to seconds at connection time and the stored integration
time is the device-reported microsecond count converted to seconds by
the preceding `integration_time` call — both durations in seconds.
The same holds for every acquisition from the post-init state. -/
theorem acquisition_sleep (dms : ℚ) (EPin0 EPin1 : Nat)
    (outcomes : Nat → Except QErr Status) (specLookup : Nat → SpecCfg)
    (ws : Status) (wc : List Bytes) (s : Status)
    (h : init_robust_status outcomes = .ok s) :
    (∃ out, (init_after_connect dms EPin0 EPin1 outcomes specLookup ws wc).2 = some out
      ∧ out.slept = max ((ws.integration_time : ℚ) / 1000000 - dms / 1000) 0)
    ∧ (∀ stF, (init_after_connect dms EPin0 EPin1 outcomes specLookup ws wc).1 = .ok stF →
      stF.usbtimeout = dms / 1000
      ∧ stF.integration_time = (ws.integration_time : ℚ) / 1000000
      ∧ ∀ wc2, (request_spectrum_full stF wc2).slept
          = max (stF.integration_time - stF.usbtimeout) 0) := by
  simp only [init_after_connect, h]
  constructor
  · split
    · refine ⟨_, rfl, ?_⟩
      rw [request_slept_eq]
      simp [integration_time_method, USBTIMEOUT, mul_one_div, div_eq_mul_inv]
    · refine ⟨_, rfl, ?_⟩
      rw [request_slept_eq]
      simp [integration_time_method, USBTIMEOUT, mul_one_div, div_eq_mul_inv]
  · split
    · intro stF hstF
      simp at hstF
    · intro stF hstF
      simp only [Except.ok.injEq] at hstF
      subst hstF
      refine ⟨?_, ?_, fun wc2 => request_slept_eq _ wc2⟩
      · simp [integration_time_method, USBTIMEOUT, mul_one_div, div_eq_mul_inv]
      · simp [integration_time_method, mul_one_div, div_eq_mul_inv]

/-- Witness for C4 at a concrete initialization. -/
theorem acquisition_sleep_witness :
    init_robust_status (fun _ => .ok statusA) = .ok statusA
    ∧ ((∃ out, (init_after_connect 100 1 2 (fun _ => .ok statusA) (fun _ => cfgA)
          statusA [[1, 0], [2, 0], [0x69]]).2 = some out
        ∧ out.slept = max ((statusA.integration_time : ℚ) / 1000000 - 100 / 1000) 0)
      ∧ (∀ stF, (init_after_connect 100 1 2 (fun _ => .ok statusA) (fun _ => cfgA)
            statusA [[1, 0], [2, 0], [0x69]]).1 = .ok stF →
          stF.usbtimeout = 100 / 1000
          ∧ stF.integration_time = (statusA.integration_time : ℚ) / 1000000
          ∧ ∀ wc2, (request_spectrum_full stF wc2).slept
              = max (stF.integration_time - stF.usbtimeout) 0)) :=
  ⟨rfl, acquisition_sleep 100 1 2 (fun _ => .ok statusA) (fun _ => cfgA)
      statusA [[1, 0], [2, 0], [0x69]] statusA rfl⟩

/-- On a transport whose reads return exactly the requested number of
bytes, the concatenated packets hold `packet_N * packet_size` bytes. -/
theorem flatten_length_const (chunks : List Bytes) (N size : Nat)
    (hs : ∀ i, i < N → (chunks.getD i []).length = size) :
    (((List.range N).map fun i => chunks.getD i []).flatten).length = N * size := by
  rw [List.length_flatten, List.map_map]
  have hrep : (List.range N).map (List.length ∘ fun i => chunks.getD i [])
      = List.replicate N size := by
    rw [List.eq_replicate_iff]
    refine ⟨by simp, ?_⟩
    intro b hb
    rcases List.mem_map.mp hb with ⟨i, hi, hib⟩
    rw [← hib]
    exact hs i (List.mem_range.mp hi)
  rw [hrep, List.sum_const_nat]

/-- C7 counterexample: construction performs no layout-invariant check.
With the layout `packet_N = 1, packet_size = 100` against a 2-pixel
status (`1 * 100 ≠ 2 * 2`), initialization SUCCEEDS when the device
answers the single read with 4 bytes (USB bulk reads may return fewer
bytes than requested), so no configuration rejection exists. -/
theorem init_no_invariant_check :
    cfgBad.packet_N * cfgBad.packet_size ≠ 2 * statusA.pixels
    ∧ ∃ stF, (init_after_connect 100 1 2 (fun _ => .ok statusA) (fun _ => cfgBad)
        statusA [[1, 0, 2, 0], [0x69]]).1 = .ok stF :=
  ⟨by decide, ⟨_, rfl⟩⟩

/-- C7 amended: construction never checks the invariant explicitly,
but under a transport whose reads return exactly the requested sizes,
any selected layout violating `packet_N * packet_size = 2 * pixels`
makes the warm-up acquisition (and hence initialization) fail: the
concatenated packets can never unpack into `pixels` 16-bit samples. -/
theorem init_fails_bad_layout (dms : ℚ) (EPin0 EPin1 : Nat)
    (outcomes : Nat → Except QErr Status) (specLookup : Nat → SpecCfg)
    (ws : Status) (wc : List Bytes) (s : Status)
    (h : init_robust_status outcomes = .ok s)
    (hsize : ∀ i, i < (specLookup s.usb_speed).packet_N →
      (wc.getD i []).length = (specLookup s.usb_speed).packet_size)
    (hviol : (specLookup s.usb_speed).packet_N * (specLookup s.usb_speed).packet_size
      ≠ 2 * s.pixels) :
    ∀ stF, (init_after_connect dms EPin0 EPin1 outcomes specLookup ws wc).1 ≠ .ok stF := by
  intro stF hok
  simp only [init_after_connect, h] at hok
  split at hok
  · simp at hok
  · rename_i data heq
    have hshape := (request_result_ok_shape _ wc data heq).2
    have hlen := flatten_length_const wc (specLookup s.usb_speed).packet_N
      (specLookup s.usb_speed).packet_size hsize
    simp only [integration_time_method] at hshape
    exact hviol (by rw [← hlen]; simpa using hshape)

/-- Witness for the amended C7 at a concrete bad layout with
exact-size reads. -/
theorem init_fails_bad_layout_witness :
    init_robust_status (fun _ => .ok statusA) = .ok statusA
    ∧ ∀ stF, (init_after_connect 100 1 2 (fun _ => .ok statusA) (fun _ => cfgBad)
        statusA [List.replicate 100 7, [0x69]]).1 ≠ .ok stF :=
  ⟨rfl, init_fails_bad_layout 100 1 2 (fun _ => .ok statusA) (fun _ => cfgBad)
      statusA [List.replicate 100 7, [0x69]] statusA rfl
      (by decide)
      (by decide)⟩

/-- The wavelength polynomial written out as a cubic. -/
theorem wl_poly_explicit (wl : List ℚ) (p : Nat) :
    wl_poly wl p = wl.getD 0 0 + wl.getD 1 0 * p + wl.getD 2 0 * (p : ℚ) ^ 2
      + wl.getD 3 0 * (p : ℚ) ^ 3 := by
  simp [wl_poly, List.range_succ]
  ring

/-- C8 counterexample: the coefficients (0, 1, 0, -1) have
`wl_coeff[1] > 0`, yet the two-pixel wavelength axis is (0, 0) — not
strictly increasing. -/
theorem wavelengths_not_increasing :
    (0 : ℚ) < [0, 1, 0, -1].getD 1 0
    ∧ ¬ List.Pairwise (· < ·) (wl_axis [0, 1, 0, -1] 2) := by
  refine ⟨by norm_num, ?_⟩
  have haxis : wl_axis [0, 1, 0, -1] 2 = [0, 0] := by
    norm_num [wl_axis, wl_poly, List.range_succ]
  rw [haxis]
  norm_num [List.pairwise_cons]

/-- C8 amended: the wavelength axis is strictly increasing whenever
`wl_coeff[1] > 0` and the higher coefficients `wl_coeff[2]`,
`wl_coeff[3]` are nonnegative (the unqualified claim fails, see the
counterexample). -/
theorem wavelengths_increasing (wl : List ℚ) (pixels : Nat)
    (h1 : 0 < wl.getD 1 0) (h2 : 0 ≤ wl.getD 2 0) (h3 : 0 ≤ wl.getD 3 0) :
    List.Pairwise (· < ·) (wl_axis wl pixels) := by
  unfold wl_axis
  rw [List.pairwise_map]
  refine (List.pairwise_lt_range pixels).imp ?_
  intro a b hab
  rw [wl_poly_explicit, wl_poly_explicit]
  have hpq : (a : ℚ) < (b : ℚ) := by exact_mod_cast hab
  have ha0 : (0 : ℚ) ≤ (a : ℚ) := Nat.cast_nonneg a
  have hp2 : ((a : ℚ)) ^ 2 ≤ ((b : ℚ)) ^ 2 := pow_le_pow_left₀ ha0 hpq.le 2
  have hp3 : ((a : ℚ)) ^ 3 ≤ ((b : ℚ)) ^ 3 := pow_le_pow_left₀ ha0 hpq.le 3
  have t1 : wl.getD 1 0 * (a : ℚ) < wl.getD 1 0 * (b : ℚ) := mul_lt_mul_of_pos_left hpq h1
  have t2 : wl.getD 2 0 * (a : ℚ) ^ 2 ≤ wl.getD 2 0 * (b : ℚ) ^ 2 :=
    mul_le_mul_of_nonneg_left hp2 h2
  have t3 : wl.getD 3 0 * (a : ℚ) ^ 3 ≤ wl.getD 3 0 * (b : ℚ) ^ 3 :=
    mul_le_mul_of_nonneg_left hp3 h3
  linarith

/-- Witness for the amended C8. -/
theorem wavelengths_increasing_witness :
    (0 : ℚ) < [1, 2, 3, 4].getD 1 0
    ∧ (0 : ℚ) ≤ [1, 2, 3, 4].getD 2 0
    ∧ (0 : ℚ) ≤ [1, 2, 3, 4].getD 3 0
    ∧ List.Pairwise (· < ·) (wl_axis [1, 2, 3, 4] 4) :=
  ⟨by norm_num, by norm_num, by norm_num,
   wavelengths_increasing [1, 2, 3, 4] 4 (by norm_num) (by norm_num) (by norm_num)⟩

end OceanOptics
